import Mathlib

/-!
Verification of the `backman` backup manager's target execution engine.

This file gives a shallow embedding, in Lean 4, of the parts of
`src/target/target.cpp`, `src/utils.cpp` and `src/main.cpp` that the
specification's claims are about:

* `Target::get_file_name` (destination file naming),
* the `encrypt` / `elavated` key parsing in `Target::Target`,
* the archiver command construction in `Target::run_main`,
* the parent-side secret delivery of `Target::run_main`'s encrypted branch,
* `resolve_path_with_environment` from `utils.cpp`,
* `Target::SystemCommand` (`run` / `has_exited` / `wait`) together with the
  hook scheduler `Target::run_hooks`, modelled as a deterministic state
  machine over an explicit OS process table with the POSIX `waitpid`
  semantics the code relies on.

C `int` values are modelled as 32-bit two's-complement bit patterns, i.e.
`Nat` values below `2 ^ 32`; `-1` is the pattern `2 ^ 32 - 1`.
-/

namespace Backman

/-! ## C integer and `wstatus` primitives

The code manipulates `int` statuses with the glibc macros `WIFEXITED`,
`WIFSIGNALED`, `WEXITSTATUS`, `WTERMSIG`.  On Linux these are

* `WIFEXITED(s)   = ((s & 0x7f) == 0)`
* `WIFSIGNALED(s) = (((s & 0x7f) + 1) >> 1) > 0`  (i.e. `s & 0x7f` is
  neither `0` nor `0x7f`)
* `WEXITSTATUS(s) = (s >> 8) & 0xff`
* `WTERMSIG(s)    = s & 0x7f`
-/

/-- The bit pattern of the C `int` value `-1` (two's complement, 32 bits). -/
def intNeg1 : Nat := 2 ^ 32 - 1

/-- Signed reading of a 32-bit pattern, used for the C comparison `x > 0`. -/
def intSigned (n : Nat) : Int :=
  if n < 2 ^ 31 then (n : Int) else (n : Int) - 2 ^ 32

/-- C `status > 0` on a 32-bit pattern. -/
def intPos (n : Nat) : Bool := 0 < intSigned n

/-- `WIFEXITED` on a wait status. -/
def wifexited (s : Nat) : Bool := s % 128 = 0

/-- `WIFSIGNALED` on a wait status. -/
def wifsignaled (s : Nat) : Bool := s % 128 ≠ 0 && s % 128 ≠ 127

/-- `WEXITSTATUS` on a wait status. -/
def wexitstatus (s : Nat) : Nat := s / 256 % 256

/-- `WTERMSIG` on a wait status. -/
def wtermsig (s : Nat) : Nat := s % 128

/-- The wait status reported for a child that exited normally with `code`. -/
def mkExitStatus (code : Nat) : Nat := code % 256 * 256

/-! ## Destination file name (`Target::get_file_name`)

```cpp
std::string Target::get_file_name() {
  ... strftime(buff, sizeof(buff), "%Y-%m-%d", &tm);
  std::string ext = ".tar.";
  ext += this->compress_program;
  if (this->encrypt) { ext += ".gpg"; }
  std::string name = this->name + "_" + buff + ext;
  return name;
}
```
The current date (already formatted as `YYYY-MM-DD`) is passed in as the
`date` argument. -/

/-- `Target::get_file_name`, with the `strftime`-formatted current date as an
explicit argument. -/
def get_file_name (name : String) (date : String) (compress_program : String)
    (encrypt : Bool) : String :=
  let ext := ".tar." ++ compress_program
  let ext := if encrypt then ext ++ ".gpg" else ext
  name ++ "_" ++ date ++ ext

/-! ## Boolean config keys and the `encrypt` default (`Target::Target`)

The constructor reads each scalar key's value list; more than one value is a
fatal configuration error, an unparsable boolean is a fatal error, and in
the zero-value case `elavated` defaults to `false` while `encrypt` defaults
to the already-computed `elavated` member (target.cpp line 133:
`this->encrypt = this->elavated;`). -/

/-- A fatal configuration error (the program logs and calls `std::exit(1)`). -/
inductive ConfigError where
  | tooMany (key : String)
  | invalidBool (key : String) (value : String)
  deriving DecidableEq, Repr

/-- `toLower` from target.cpp, on ASCII strings. -/
def toLowerStr (s : String) : String := String.mk (s.data.map Char.toLower)

/-- Parse one optional boolean key exactly as the constructor does: more than
one value is fatal, one value must read (case-insensitively) `true` or
`false`, zero values yield `dflt`. -/
def parseBoolKey (key : String) (values : List String) (dflt : Bool) :
    Except ConfigError Bool :=
  if values.length > 1 then .error (.tooMany key)
  else
    match values with
    | [] => .ok dflt
    | v :: _ =>
      if toLowerStr v = "true" then .ok true
      else if toLowerStr v = "false" then .ok false
      else .error (.invalidBool key v)

/-- The `elavated` member computed from the `elavated` key's values
(default `false`). -/
def target_elavated (elavateds : List String) : Except ConfigError Bool :=
  parseBoolKey "elavated" elavateds false

/-- The `encrypt` member computed from the `elavated` and `encrypt` keys'
values: the constructor computes `elavated` first and uses it as the default
for `encrypt`. -/
def target_encrypt (elavateds encrypts : List String) :
    Except ConfigError Bool := do
  let el ← target_elavated elavateds
  parseBoolKey "encrypt" encrypts el

/-! ## Archiver command construction (`Target::run_main`, lines 271–309)

```cpp
if (geteuid() == 0 || getegid() == 0) { this->elavated = false; }
...
if (this->elavated) {
  tar_command.push_back(this->elavate_program.c_str());
  tar_command.push_back("--");
}
tar_command.push_back("tar");
if (this->one_file_system) { tar_command.push_back("--one-file-system"); }
tar_command.push_back("-cp"); ... ("--xattrs"); ... ("--acls"); ... ("-I");
tar_command.push_back(this->compress_program.c_str());
for each exclude: push "--exclude=\"" + exclude + "\"";
for each extra flag: push it;
push path;  if (!encrypt) { push "-f"; push destfile; }
```
-/

/-- The archiver argument vector built by `run_main` (without the trailing
`NULL`).  `euid` and `egid` are the results of `geteuid()` / `getegid()`. -/
def tar_command (euid egid : Nat) (elavated : Bool) (elavate_program : String)
    (one_file_system : Bool) (compress_program : String)
    (excludes tar_flags : List String) (path : String) (encrypt : Bool)
    (destfile : String) : List String :=
  let elavated := if euid = 0 || egid = 0 then false else elavated
  (if elavated then [elavate_program, "--"] else [])
    ++ ["tar"]
    ++ (if one_file_system then ["--one-file-system"] else [])
    ++ ["-cp", "--xattrs", "--acls", "-I", compress_program]
    ++ excludes.map (fun e => "--exclude=\"" ++ e ++ "\"")
    ++ tar_flags
    ++ [path]
    ++ (if !encrypt then ["-f", destfile] else [])

/-! ## Parent-side secret delivery (`Target::run_main`, lines 378–389)

After the cipher child is forked successfully the parent executes

```cpp
this->passphrase += '\n';
std::printf("%s", passphrase.c_str());
write(passphrase_pipefds[1], this->passphrase.c_str(), this->passphrase.length());
close(passphrase_pipefds[1]);
```
-/

/-- The parent's observable effects while delivering the secret. -/
structure SecretDelivery where
  /-- Bytes the parent prints on its standard output (`std::printf`). -/
  stdoutBytes : List Char
  /-- Bytes the parent writes into the secret pipe's write end. -/
  secretPipeBytes : List Char
  /-- Whether the parent closes the secret pipe's write end afterwards. -/
  secretPipeClosed : Bool
  deriving DecidableEq, Repr

/-- The parent-side secret-delivery effects of `run_main`'s encrypted branch,
as a function of the in-memory passphrase. -/
def run_main_secret_delivery (passphrase : List Char) : SecretDelivery :=
  let p := passphrase ++ ['\n']
  { stdoutBytes := p
    secretPipeBytes := p
    secretPipeClosed := true }

/-! ## Environment expansion (`resolve_path_with_environment`, utils.cpp)

The C++ function scans the string once.  On `$`:

* `${VAR}`: find the first `}` after `i + 2`; if none, emit `$` and continue
  with the next character; otherwise look the name up with `getenv`, emit
  the value if set and the literal `${VAR}` if unset, and resume after `}`.
* `$VAR` with a non-empty maximal run of alphanumeric/underscore characters:
  look the name up, emit the value if set and the literal `$VAR` if unset,
  and resume after the run.
* a lone `$` (next character is not a name character): emit `$` and resume
  at the next character.

Other characters are copied verbatim.  The process environment is the
function `env : String → Option String` (`getenv`). -/

/-- `std::isalnum(c) || c == '_'` for the `$VAR` name scan (C locale). -/
def isVarChar (c : Char) : Bool := c.isAlphanum || c = '_'

/-- The scan predicate used for the `${VAR}` form: not the closing brace. -/
def notCloseBrace (c : Char) : Bool := c ≠ '}'

theorem length_dropWhile_le (p : Char → Bool) (l : List Char) :
    (l.dropWhile p).length ≤ l.length := by
  induction l with
  | nil => simp
  | cons a l ih =>
    by_cases h : p a
    · simpa [List.dropWhile_cons, h] using Nat.le_succ_of_le ih
    · simp [List.dropWhile_cons, h]

/-- The value substituted for a `${VAR}` or `$VAR` reference whose name
characters are `var`: the environment value when set, and the literal
reference text when unset (`lit` is the reference's own spelling). -/
def substVar (env : String → Option String) (var lit : List Char) :
    List Char :=
  match env (String.mk var) with
  | some v => v.data
  | none => lit

/-- `resolve_path_with_environment`'s scanning loop on the character list.
It follows the C++ loop: an ordinary character is copied; on `$` the code
first checks for `{` (the `${VAR}` form, resuming after the `}` when one is
found), then scans a maximal run of name characters (the `$VAR` form), and
a lone `$` is copied as-is, resuming at the following character. -/
def resolveEnv (env : String → Option String) : List Char → List Char
  | [] => []
  | c :: rest =>
    if c = '$' then
      if rest.head? = some '{' then
        let after := rest.tail
        if '}' ∈ after then
          let var := after.takeWhile notCloseBrace
          let after2 := (after.dropWhile notCloseBrace).tail
          substVar env var ('$' :: '{' :: (var ++ ['}'])) ++ resolveEnv env after2
        else
          '$' :: resolveEnv env rest
      else
        let var := rest.takeWhile isVarChar
        let after2 := rest.dropWhile isVarChar
        if var = [] then
          '$' :: resolveEnv env rest
        else
          substVar env var ('$' :: var) ++ resolveEnv env after2
    else
      c :: resolveEnv env rest
  termination_by cs => cs.length
  decreasing_by
  · have h1 : (rest.tail.dropWhile notCloseBrace).length ≤ rest.tail.length :=
      length_dropWhile_le notCloseBrace rest.tail
    have h2 : ((rest.tail.dropWhile notCloseBrace).tail).length ≤
        (rest.tail.dropWhile notCloseBrace).length := by
      cases rest.tail.dropWhile notCloseBrace <;> simp
    have h3 : rest.tail.length ≤ rest.length := by
      cases rest <;> simp
    simp only [List.length_cons]
    omega
  · simp
  · simp
  · have h1 : (rest.dropWhile isVarChar).length ≤ rest.length :=
      length_dropWhile_le isVarChar rest
    simp only [List.length_cons]
    omega
  · simp

/-- Unfolding of `resolveEnv` on a non-empty list. -/
theorem resolveEnv_cons (env : String → Option String) (c : Char)
    (rest : List Char) :
    resolveEnv env (c :: rest) =
      if c = '$' then
        if rest.head? = some '{' then
          let after := rest.tail
          if '}' ∈ after then
            let var := after.takeWhile notCloseBrace
            let after2 := (after.dropWhile notCloseBrace).tail
            substVar env var ('$' :: '{' :: (var ++ ['}'])) ++
              resolveEnv env after2
          else
            '$' :: resolveEnv env rest
        else
          let var := rest.takeWhile isVarChar
          let after2 := rest.dropWhile isVarChar
          if var = [] then
            '$' :: resolveEnv env rest
          else
            substVar env var ('$' :: var) ++ resolveEnv env after2
      else
        c :: resolveEnv env rest := by
  rw [resolveEnv]

/-- `resolve_path_with_environment` on strings (the returned
`std::filesystem::path` is its string). -/
def resolve_path_with_environment (env : String → Option String)
    (path : String) : String :=
  String.mk (resolveEnv env path.data)

/-! ## `Target::SystemCommand` and the hook scheduler `Target::run_hooks`

A `SystemCommand` holds the C++ members

```cpp
bool failed = false;  bool ran = false;  bool exited = false;
int exit_code = 0;    pid_t cpid = -1;
```

The OS side is an explicit process table: one `ProcState` per hook.  Process
ids are modelled as the hook's index in the batch (all distinct and ≥ 0);
the sentinel `cpid = -1` is kept as an `Int`.

`waitpid` semantics used (Linux):

* `waitpid(pid, &st, WNOHANG)` with `pid ≥ 0`: if the child is still
  running it returns `0` **without writing `st`**; if the child has
  terminated and is unreaped it fills `st` and reaps it; if the pid was
  already reaped it returns `-1` (`ECHILD`) without writing `st`.
* `waitpid(pid, &st, 0)`: blocks until the unreaped child terminates, fills
  `st` and reaps it; on an already-reaped pid it returns `-1` without
  writing `st`.
* `waitpid(-1, &st, WNOHANG)` waits for *any* child.  It is modelled as
  finding no terminated child (returning without writing `st`), which
  matches every execution in which no started hook has terminated and is
  unreaped at that instant — in particular the concrete runs below.

The timing oracle for one hook is its `HookFate`: whether `fork` fails,
and otherwise the wait status its process will report and whether the
process has already terminated when the scheduler first polls it. -/

/-- OS behaviour of one hook: `fork` fails, or a process is created that
reports wait status `wstatus`, having already terminated (or not) at the
scheduler's first non-blocking poll of it. -/
inductive HookFate where
  | forkFails
  | proc (wstatus : Nat) (doneAtFirstPoll : Bool)
  deriving DecidableEq, Repr

/-- The members of `Target::SystemCommand`. -/
structure SysCmd where
  failed : Bool := false
  ran : Bool := false
  exited : Bool := false
  exit_code : Nat := 0
  cpid : Int := -1
  deriving DecidableEq, Repr

/-- OS-side state of one hook's process. -/
inductive ProcState where
  /-- `run()` has not been called, or `fork` failed: no process exists. -/
  | none
  /-- The process exists and is unreaped; it reports wait status `ws` when
  reaped, and `doneAtPoll` says whether it has already terminated when the
  scheduler next polls it with `WNOHANG`. -/
  | unreaped (ws : Nat) (doneAtPoll : Bool)
  /-- The process has been reaped; its pid no longer names a child. -/
  | reaped
  deriving DecidableEq, Repr

/-- Whether a hook has been started and not yet reaped (a live or zombie
child process exists for it). -/
def ProcState.isUnreaped : ProcState → Bool
  | .unreaped _ _ => true
  | _ => false

/-- A `waitpid` call issued to the OS: the pid argument and whether the call
was blocking (`true`) or `WNOHANG` (`false`). -/
structure WEvent where
  pid : Int
  blocking : Bool
  deriving DecidableEq, Repr

/-- `Target::SystemCommand::run`:

```cpp
this->ran = true;
pid_t cpid = fork();
if (cpid == 0) { std::exit(system(this->command.c_str())); }
else if (cpid == -1) { Logger::logf(...); this->failed = true; }
else { this->cpid = cpid; }
```

`pid` is the model pid assigned on success (the hook's index). -/
def SC_run (pid : Nat) (fate : HookFate) (cmd : SysCmd) : SysCmd × ProcState :=
  match fate with
  | .forkFails => ({ cmd with ran := true, failed := true }, .none)
  | .proc ws z => ({ cmd with ran := true, cpid := (pid : Int) }, .unreaped ws z)

/-- Result of `SystemCommand::has_exited`. -/
structure PollResult where
  ret : Bool
  proc : ProcState
  syscall : WEvent
  deriving DecidableEq, Repr

/-- `Target::SystemCommand::has_exited`:

```cpp
int status = 0;
waitpid(this->cpid, &status, WNOHANG);
return WIFEXITED(status) || WIFSIGNALED(status);
```

The return value of `waitpid` is not checked, so `status` keeps its initial
`0` whenever `waitpid` does not report a terminated child. -/
def SC_has_exited (cmd : SysCmd) (proc : ProcState) : PollResult :=
  let ev : WEvent := { pid := cmd.cpid, blocking := false }
  if cmd.cpid = -1 then
    -- waitpid(-1, &status, WNOHANG): no terminated child reported
    { ret := wifexited 0 || wifsignaled 0, proc := proc, syscall := ev }
  else
    match proc with
    | .unreaped ws true =>
      -- the child has terminated: waitpid fills status and reaps it
      { ret := wifexited ws || wifsignaled ws, proc := .reaped, syscall := ev }
    | .unreaped ws false =>
      -- still running: waitpid returns 0, status keeps its initial 0
      { ret := wifexited 0 || wifsignaled 0, proc := .unreaped ws false,
        syscall := ev }
    | p =>
      -- already reaped (or never created): ECHILD, status keeps its 0
      { ret := wifexited 0 || wifsignaled 0, proc := p, syscall := ev }

/-- Result of `SystemCommand::wait`. -/
structure WaitResult where
  ret : Nat
  cmd : SysCmd
  proc : ProcState
  syscall : Option WEvent
  deriving DecidableEq, Repr

/-- `Target::SystemCommand::wait`:

```cpp
if (this->exited) { return this->exit_code; }
if (this->failed) { this->exit_code = -1; return -1; }
int wstatus = 0;
waitpid(this->cpid, &wstatus, 0);
if (WIFSIGNALED(wstatus)) { this->exit_code = WTERMSIG(wstatus); return this->exit_code; }
if (WIFEXITED(wstatus))  { this->exit_code = WEXITSTATUS(wstatus); return this->exit_code; }
this->failed = true; this->exit_code = -1; return -1;
```

Note that no branch ever sets `this->exited`. -/
def SC_wait (cmd : SysCmd) (proc : ProcState) : WaitResult :=
  if cmd.exited then
    { ret := cmd.exit_code, cmd := cmd, proc := proc, syscall := none }
  else if cmd.failed then
    { ret := intNeg1, cmd := { cmd with exit_code := intNeg1 }, proc := proc,
      syscall := none }
  else
    let ev : WEvent := { pid := cmd.cpid, blocking := true }
    let (ws, proc') :=
      match proc with
      | .unreaped w _ => (w, ProcState.reaped)
      | p => (0, p)  -- ECHILD: the local wstatus keeps its initial 0
    if wifsignaled ws then
      { ret := wtermsig ws, cmd := { cmd with exit_code := wtermsig ws },
        proc := proc', syscall := some ev }
    else if wifexited ws then
      { ret := wexitstatus ws, cmd := { cmd with exit_code := wexitstatus ws },
        proc := proc', syscall := some ev }
    else
      { ret := intNeg1,
        cmd := { cmd with failed := true, exit_code := intNeg1 },
        proc := proc', syscall := some ev }

/-- State of one `Target::run_hooks` execution: the copied `hooks` vector,
the OS process table, the locals `status`, `running_children` and
`num_hooks`, plus two instrumentation fields — the `waitpid` calls issued so
far and the largest number of simultaneously started-and-unreaped hooks
observed so far. -/
structure HooksState where
  cmds : List SysCmd
  procs : List ProcState
  status : Nat
  running_children : Int
  num_hooks : Nat
  events : List WEvent
  maxUnreaped : Nat
  deriving Repr

/-- Number of started-and-unreaped hooks. -/
def unreapedCount (procs : List ProcState) : Nat :=
  (procs.filter ProcState.isUnreaped).length

/-- Indices visited by the reap pass
`for (int i = hooks.size() - 1; i >= num_hooks; i--)`. -/
def pollIndices (size nh : Nat) : List Nat :=
  ((List.range size).filter (fun i => nh ≤ i)).reverse

/-- One iteration of the reap pass body:

```cpp
if (hooks[i].has_exited()) { status |= hooks[i].wait(); running_children--; }
```
-/
def pollStep (s : HooksState) (i : Nat) : HooksState :=
  let pr := SC_has_exited (s.cmds.getD i {}) (s.procs.getD i .none)
  let s := { s with procs := s.procs.set i pr.proc,
                    events := s.events ++ [pr.syscall] }
  if pr.ret then
    let wr := SC_wait (s.cmds.getD i {}) (s.procs.getD i .none)
    { s with cmds := s.cmds.set i wr.cmd, procs := s.procs.set i wr.proc,
             status := s.status.lor wr.ret,
             running_children := s.running_children - 1,
             events := s.events ++ wr.syscall.toList }
  else s

/-- The full reap pass over all started hooks (the 50 ms sleep that follows
it has no observable effect in this model). -/
def pollPass (s : HooksState) : HooksState :=
  (pollIndices s.cmds.length s.num_hooks).foldl pollStep s

/-- `hooks[--num_hooks].run(); running_children++;`, recording the new
number of simultaneously started-and-unreaped hooks. -/
def spawnStep (fates : List HookFate) (s : HooksState) : HooksState :=
  let i := s.num_hooks - 1
  let (cmd', proc') := SC_run i (fates.getD i .forkFails) (s.cmds.getD i {})
  let procs := s.procs.set i proc'
  { s with cmds := s.cmds.set i cmd', procs := procs, num_hooks := i,
           running_children := s.running_children + 1,
           maxUnreaped := max s.maxUnreaped (unreapedCount procs) }

/-- The `while (num_hooks > 0)` loop of `run_hooks`, fuelled (the loop does
not terminate for every `jobs` value, e.g. `jobs ≤ 0`). -/
def hooksLoop (fates : List HookFate) (jobs : Int) :
    Nat → HooksState → Option HooksState
  | 0, _ => none
  | fuel + 1, s =>
    if s.num_hooks = 0 then some s
    else if s.running_children < jobs then
      hooksLoop fates jobs fuel (spawnStep fates s)
    else
      hooksLoop fates jobs fuel (pollPass s)

/-- The final `for (...) status |= hooks[i].wait();` loop. -/
def finalWaits (s : HooksState) : HooksState :=
  (List.range s.cmds.length).foldl
    (fun s i =>
      let wr := SC_wait (s.cmds.getD i {}) (s.procs.getD i .none)
      { s with cmds := s.cmds.set i wr.cmd, procs := s.procs.set i wr.proc,
               status := s.status.lor wr.ret,
               events := s.events ++ wr.syscall.toList })
    s

/-- Initial state of `run_hooks` for a batch of `n` hooks. -/
def initHooksState (n : Nat) : HooksState :=
  { cmds := List.replicate n {}, procs := List.replicate n .none,
    status := 0, running_children := 0, num_hooks := n, events := [],
    maxUnreaped := 0 }

/-- `Target::run_hooks` on a batch of hooks with the given OS fates, under
job limit `jobs` (`options.jobs`).  Returns `none` only on fuel exhaustion
(which does not happen in the runs below); otherwise the returned boolean is
the C++ `return status > 0;` and the state carries the instrumentation. -/
def run_hooks (fates : List HookFate) (jobs : Int) :
    Option (Bool × HooksState) :=
  (hooksLoop fates jobs (4 * fates.length + 4) (initHooksState fates.length)).map
    (fun s =>
      let s := finalWaits s
      (intPos s.status, s))

/-! ## Lemmas about the environment-expansion scan -/

theorem takeWhile_dropWhile_append (p : Char → Bool) (l1 t : List Char)
    (h : ∀ c ∈ l1, p c = true) (ht : ∀ c, t.head? = some c → p c = false) :
    (l1 ++ t).takeWhile p = l1 ∧ (l1 ++ t).dropWhile p = t := by
  induction l1 with
  | nil =>
    cases t with
    | nil => simp
    | cons x t' =>
      have hx := ht x rfl
      simp [List.takeWhile_cons, List.dropWhile_cons, hx]
  | cons a l ih =>
    have ha := h a (List.mem_cons_self a l)
    have hih := ih fun c hc => h c (List.mem_cons_of_mem a hc)
    simp [List.takeWhile_cons, List.dropWhile_cons, ha, hih.1, hih.2]

theorem substVar_some (env : String → Option String) (var lit : List Char)
    (v : String) (h : env (String.mk var) = some v) :
    substVar env var lit = v.data := by
  simp [substVar, h]

theorem substVar_none (env : String → Option String) (var lit : List Char)
    (h : env (String.mk var) = none) : substVar env var lit = lit := by
  simp [substVar, h]

/-- A `${VAR}` reference (name free of `}`) is substituted and the scan
resumes right after the closing brace. -/
theorem resolveEnv_dollar_brace (env : String → Option String)
    (nameCs rest : List Char) (hb : ∀ c ∈ nameCs, notCloseBrace c = true) :
    resolveEnv env ('$' :: '{' :: (nameCs ++ '}' :: rest)) =
      substVar env nameCs ('$' :: '{' :: (nameCs ++ ['}'])) ++
        resolveEnv env rest := by
  have ht : ∀ c, (('}' : Char) :: rest).head? = some c →
      notCloseBrace c = false := by
    intro c hc
    rw [show (('}' : Char) :: rest).head? = some '}' from rfl] at hc
    cases hc
    decide
  obtain ⟨htake, hdrop⟩ :=
    takeWhile_dropWhile_append notCloseBrace nameCs ('}' :: rest) hb ht
  rw [resolveEnv_cons]
  simp [htake, hdrop]

/-- A `$VAR` reference (non-empty name of name characters, followed by end
of string or a non-name character) is substituted and the scan resumes right
after the name. -/
theorem resolveEnv_dollar_var (env : String → Option String)
    (nameCs rest : List Char) (hne : nameCs ≠ [])
    (hv : ∀ c ∈ nameCs, isVarChar c = true)
    (hr : ∀ c, rest.head? = some c → isVarChar c = false) :
    resolveEnv env ('$' :: (nameCs ++ rest)) =
      substVar env nameCs ('$' :: nameCs) ++ resolveEnv env rest := by
  obtain ⟨c, cs, rfl⟩ := List.exists_cons_of_ne_nil hne
  have hc : isVarChar c = true := hv c (List.mem_cons_self c cs)
  have hcb : c ≠ '{' := by
    intro e
    rw [e] at hc
    exact absurd hc (by decide)
  obtain ⟨htake, hdrop⟩ :=
    takeWhile_dropWhile_append isVarChar (c :: cs) rest hv hr
  rw [resolveEnv_cons, if_pos rfl,
    if_neg (show ¬((c :: cs ++ rest).head? = some '{') from
      fun h => hcb (Option.some.inj h))]
  simp only [htake, hdrop]
  rw [if_neg (show ¬(c :: cs = []) from List.cons_ne_nil c cs)]

/-- Characters other than `$` are copied verbatim. -/
theorem resolveEnv_no_dollar (env : String → Option String) (cs : List Char)
    (h : '$' ∉ cs) : resolveEnv env cs = cs := by
  induction cs with
  | nil => rw [resolveEnv]
  | cons c rest ih =>
    have hc : ¬c = '$' := fun e => h (e ▸ List.mem_cons_self c rest)
    rw [resolveEnv_cons, if_neg hc,
      ih fun m => h (List.mem_cons_of_mem c m)]

/-! ## Theorems -/

/-- `hooks[0].wait()` called once on a hook whose process terminated with
exit code 5 (wait status `5 << 8`). -/
def waitOnce : WaitResult :=
  SC_wait { ran := true, cpid := 7 } (.unreaped (mkExitStatus 5) false)

/-- The same Job's `wait()` called a second time, after the first call
observed the terminal status. -/
def waitTwice : WaitResult := SC_wait waitOnce.cmd waitOnce.proc

/-- **C7.**  The destination file name equals
`{name}_{YYYY-MM-DD}.tar.{compress_program}` with `.gpg` appended iff
`encrypt` is true; in particular `db` + `xz` on 2026-03-01 gives
`db_2026-03-01.tar.xz` unencrypted and `db_2026-03-01.tar.xz.gpg`
encrypted. -/
theorem get_file_name_spec :
    (∀ (name date cp : String) (encrypt : Bool),
      get_file_name name date cp encrypt =
        name ++ "_" ++ date ++ ".tar." ++ cp ++
          (if encrypt then ".gpg" else ""))
    ∧ get_file_name "db" "2026-03-01" "xz" false = "db_2026-03-01.tar.xz"
    ∧ get_file_name "db" "2026-03-01" "xz" true = "db_2026-03-01.tar.xz.gpg" := by
  refine ⟨fun name date cp encrypt => ?_, by decide, by decide⟩
  apply String.ext
  cases encrypt <;> simp [get_file_name, String.data_append]

/-- **C9.**  With no `encrypt` key configured, the target's `encrypt` flag
equals the already-computed `elavated` flag — it tracks the `elavated`
configuration rather than being a fixed constant. -/
theorem encrypt_defaults_to_elavated :
    (∀ elavateds : List String,
      target_encrypt elavateds [] = target_elavated elavateds)
    ∧ target_encrypt ["true"] [] = .ok true
    ∧ target_encrypt ["false"] [] = .ok false
    ∧ target_encrypt [] [] = .ok false := by
  refine ⟨fun elavateds => ?_, rfl, rfl, rfl⟩
  unfold target_encrypt
  cases h : target_elavated elavateds with
  | error e => rfl
  | ok el => rfl

/-- **C10.**  When `geteuid()` or `getegid()` is 0, `run_main` builds the
archiver command without the elevation-helper prefix, whatever the
configured `elavated` value: the command is the one built with
`elavated = false`, and its first word is `tar`. -/
theorem tar_command_no_elevation_when_root (euid egid : Nat)
    (h : euid = 0 ∨ egid = 0) (elavated : Bool) (elavate_program : String)
    (one_file_system : Bool) (compress_program : String)
    (excludes tar_flags : List String) (path : String) (encrypt : Bool)
    (destfile : String) :
    tar_command euid egid elavated elavate_program one_file_system
        compress_program excludes tar_flags path encrypt destfile =
      tar_command euid egid false elavate_program one_file_system
        compress_program excludes tar_flags path encrypt destfile
    ∧ (tar_command euid egid elavated elavate_program one_file_system
        compress_program excludes tar_flags path encrypt destfile).head? =
      some "tar" := by
  cases h with
  | inl h0 => subst h0; constructor <;> simp [tar_command]
  | inr h0 => subst h0; constructor <;> simp [tar_command]

theorem tar_command_no_elevation_when_root_witness :
    tar_command 0 1000 true "su" true "xz -9e --threads=0" [] [] "/etc"
        false "/root/Backups/db.tar.xz" =
      tar_command 0 1000 false "su" true "xz -9e --threads=0" [] [] "/etc"
        false "/root/Backups/db.tar.xz"
    ∧ (tar_command 0 1000 true "su" true "xz -9e --threads=0" [] [] "/etc"
        false "/root/Backups/db.tar.xz").head? = some "tar" :=
  tar_command_no_elevation_when_root 0 1000 (Or.inl rfl) true "su" true
    "xz -9e --threads=0" [] [] "/etc" false "/root/Backups/db.tar.xz"

/-- **C3.**  During an encrypted run the parent writes exactly
`passphrase ++ "\n"` into the secret pipe's write end and then closes it,
signalling end-of-input; in particular with passphrase `secret` the pipe
receives exactly the bytes `secret\n`. -/
theorem secret_pipe_receives_passphrase_then_eof (p : List Char) :
    (run_main_secret_delivery p).secretPipeBytes = p ++ ['\n']
    ∧ (run_main_secret_delivery p).secretPipeClosed = true
    ∧ (run_main_secret_delivery "secret".data).secretPipeBytes =
        "secret\n".data :=
  ⟨rfl, rfl, by decide⟩

/-- **C2** fails on the code: besides writing the passphrase into the secret
pipe, the parent also prints it (with the appended newline) on its standard
output — `std::printf("%s", passphrase.c_str())` in `run_main` — so with
passphrase `secret` the bytes `secret\n` appear on an output channel other
than the secret pipe. -/
theorem run_main_prints_passphrase_to_stdout :
    (run_main_secret_delivery "secret".data).stdoutBytes = "secret\n".data
    ∧ (run_main_secret_delivery "secret".data).stdoutBytes ≠ [] := by
  decide

/-- **C4** fails on the code: `wait()` never sets the `exited` flag, so
after a first `wait()` has observed the terminal status (exit code 5 here),
a second `wait()` issues another blocking `waitpid` on the same pid (the
`syscall` field below) and returns 0 — not the cached terminal status 5. -/
theorem wait_requeries_os_and_loses_status :
    waitOnce.ret = 5
    ∧ waitOnce.proc = .reaped
    ∧ waitOnce.cmd.exited = false
    ∧ waitTwice.syscall = some { pid := 7, blocking := true }
    ∧ waitTwice.ret = 0 := by
  decide

/-- **C1** fails on the code: with job limit `L = options.jobs = 1` and four
hooks whose processes are still running when first polled, the scheduler
reaches a state with 2 hooks simultaneously started-and-unreaped
(`maxUnreaped = 2 > 1`).  `has_exited` ignores `waitpid`'s return value, so
`WIFEXITED(0)` makes every poll report an exit, and `wait()` never sets the
`exited` cache, so re-waiting an already-reaped hook decrements
`running_children` a second time, driving it negative and unblocking extra
spawns. -/
theorem run_hooks_exceeds_job_limit :
    (run_hooks (List.replicate 4 (.proc 0 false)) 1).map
        (fun r => r.2.maxUnreaped) = some 2
    ∧ 1 < 2 := by
  decide

/-- **C5** fails on the code: with job limit 1 and a batch of two hooks in
which the one spawned first exits with status 3 before the scheduler's first
poll, `run_hooks` returns `false` even though a hook exited nonzero.  The
`WNOHANG` `waitpid` inside `has_exited` reaps the child and discards its
status; the following `wait()` then gets `ECHILD`, leaves its local
`wstatus` at 0 and contributes `WEXITSTATUS(0) = 0` to the aggregate.
Independently, a batch whose only hook fails to spawn also yields `false`:
`status |= -1` makes the aggregate negative, and `status > 0` is then
false. -/
theorem run_hooks_false_despite_nonzero_exit :
    (run_hooks [.proc 0 false, .proc (mkExitStatus 3) true] 1).map Prod.fst =
        some false
    ∧ wifexited (mkExitStatus 3) = true
    ∧ wexitstatus (mkExitStatus 3) = 3
    ∧ (run_hooks [.forkFails] 1).map Prod.fst = some false
    ∧ (run_hooks [.forkFails] 1).map
        (fun r => (r.2.cmds.getD 0 {}).failed) = some true := by
  decide

/-- **C8.**  Every `${VAR}` or `$VAR` reference in a configured path-like
value is replaced by the environment's value for `VAR` when it is set, and
is left literally unchanged when it is unset; the scan then continues with
the remainder of the value. -/
theorem resolveEnv_reference_expansion
    (env : String → Option String) (name v : String) (rest : List Char)
    (hbrace : '}' ∉ name.data) :
    (env name = some v →
        resolveEnv env ('$' :: '{' :: (name.data ++ '}' :: rest)) =
          v.data ++ resolveEnv env rest)
    ∧ (env name = none →
        resolveEnv env ('$' :: '{' :: (name.data ++ '}' :: rest)) =
          '$' :: '{' :: (name.data ++ '}' :: resolveEnv env rest))
    ∧ (name.data ≠ [] → (∀ c ∈ name.data, isVarChar c = true) →
        (∀ c, rest.head? = some c → isVarChar c = false) →
        (env name = some v →
            resolveEnv env ('$' :: (name.data ++ rest)) =
              v.data ++ resolveEnv env rest)
        ∧ (env name = none →
            resolveEnv env ('$' :: (name.data ++ rest)) =
              '$' :: (name.data ++ resolveEnv env rest))) := by
  have hb : ∀ c ∈ name.data, notCloseBrace c = true := by
    intro c hc
    have hcne : c ≠ '}' := fun e => hbrace (e ▸ hc)
    simp [notCloseBrace, hcne]
  refine ⟨fun henv => ?_, fun henv => ?_, fun hne hv hr => ⟨fun henv => ?_, fun henv => ?_⟩⟩
  · rw [resolveEnv_dollar_brace env name.data rest hb,
      substVar_some env name.data _ v
        (show env (String.mk name.data) = some v from henv)]
  · rw [resolveEnv_dollar_brace env name.data rest hb,
      substVar_none env name.data _
        (show env (String.mk name.data) = none from henv)]
    simp
  · rw [resolveEnv_dollar_var env name.data rest hne hv hr,
      substVar_some env name.data _ v
        (show env (String.mk name.data) = some v from henv)]
  · rw [resolveEnv_dollar_var env name.data rest hne hv hr,
      substVar_none env name.data _
        (show env (String.mk name.data) = none from henv)]
    simp

/-- A concrete process environment: only `HOME` is set. -/
def envHome : String → Option String :=
  fun s => if s = "HOME" then some "/home/user" else none

theorem resolveEnv_reference_expansion_witness :
    resolve_path_with_environment envHome "${HOME}/B" = "/home/user/B"
    ∧ resolve_path_with_environment envHome "$HOME/B" = "/home/user/B"
    ∧ resolve_path_with_environment envHome "${MISSING}/B" = "${MISSING}/B" := by
  have hB : resolveEnv envHome "/B".data = "/B".data :=
    resolveEnv_no_dollar envHome "/B".data (by decide)
  refine ⟨?_, ?_, ?_⟩
  · have h1 := (resolveEnv_reference_expansion envHome "HOME" "/home/user"
      "/B".data (by decide)).1 (by decide)
    show String.mk (resolveEnv envHome "${HOME}/B".data) = "/home/user/B"
    rw [show "${HOME}/B".data =
        '$' :: '{' :: ("HOME".data ++ '}' :: "/B".data) by decide, h1, hB]
    decide
  · have h2 := ((resolveEnv_reference_expansion envHome "HOME" "/home/user"
      "/B".data (by decide)).2.2 (by decide) (by decide) (by decide)).1
      (by decide)
    show String.mk (resolveEnv envHome "$HOME/B".data) = "/home/user/B"
    rw [show "$HOME/B".data = '$' :: ("HOME".data ++ "/B".data) by decide,
      h2, hB]
    decide
  · have h3 := (resolveEnv_reference_expansion envHome "MISSING" "x"
      "/B".data (by decide)).2.1 (by decide)
    show String.mk (resolveEnv envHome "${MISSING}/B".data) = "${MISSING}/B"
    rw [show "${MISSING}/B".data =
        '$' :: '{' :: ("MISSING".data ++ '}' :: "/B".data) by decide, h3, hB]
    decide

/-- **C6** fails on the code: a spawn-failed Job is indeed permanently
marked `failed` and its `wait()` returns the sentinel −1 without touching
the OS, but the scheduler's poll pass still calls `has_exited()` on it,
which issues `waitpid(-1, …, WNOHANG)` — a (non-blocking) wait carrying the
never-created sentinel pid −1, i.e. wait-for-any-child.  The event
`{pid := -1, blocking := false}` appears in the scheduler's syscall trace. -/
theorem poll_issues_wait_on_sentinel_pid :
    (run_hooks [.proc 0 false, .forkFails] 1).map
        (fun r => decide (({ pid := -1, blocking := false } : WEvent) ∈
          r.2.events)) = some true
    ∧ (run_hooks [.proc 0 false, .forkFails] 1).map
        (fun r => (r.2.cmds.getD 1 {}).failed) = some true
    ∧ (SC_has_exited { ran := true, failed := true } .none).syscall =
        { pid := -1, blocking := false }
    ∧ (SC_wait { ran := true, failed := true } .none).syscall = none
    ∧ (SC_wait { ran := true, failed := true } .none).ret = intNeg1 := by
  decide

end Backman
